import Mathlib

/-!
# ContentStat Python binding (src/python/contentstat-py.c)

A shallow embedding of the getters, setters and lifetime hooks of the
`createrepo_c.ContentStat` wrapper type, and the properties of them that the
specification states.

Modelling conventions.

* Data model LP64 (the Linux targets of createrepo_c): `long`, `long long` and
  `gint64` are 64-bit two's complement, `int` is 32-bit two's complement.
  A narrowing conversion `(int) val` keeps the low 32 bits (gcc, clang).
* A pointer to a `cr_ContentStat` is an address (`Nat`) into a `Heap` of live
  records; `none` is the NULL pointer.  Dereferencing an address that is not
  live and freeing an address that is not live are undefined behaviour: the
  embedded function returns `none` there.  An address names one allocation:
  the heap never hands out the same address twice.
* A `char *` is the sequence of bytes in front of the terminating NUL of the
  buffer it points to; `none` is the NULL pointer.
* The interpreter is Python 2 (`PyInt_Check`, `PyString_FromString`): `int`
  holds a C `long`, `long` is unbounded, `str` is a byte string.
* Allocation failure inside the runtime (`PyLong_FromLongLong`,
  `PyString_FromString`, `g_strdup`) is not modelled.
-/

namespace ContentStatPy

/-! ## Machine integers -/

/-- Smallest value of a C `long` (LP64). -/
def LONG_MIN : Int := -9223372036854775808

/-- Largest value of a C `long` (LP64). -/
def LONG_MAX : Int := 9223372036854775807

/-- Smallest value of a C `int`. -/
def INT_MIN : Int := -2147483648

/-- Largest value of a C `int`. -/
def INT_MAX : Int := 2147483647

/-- The conversion `(int) val` of a `long`: the low 32 bits, read as two's complement. -/
def cast_int (val : Int) : Int := (val + 2147483648) % 4294967296 - 2147483648

/-- A value of the C type `long`. -/
abbrev CLong : Type := { v : Int // LONG_MIN ≤ v ∧ v ≤ LONG_MAX }

/-- One byte of a string. -/
abbrev Byte : Type := Fin 256

/-- The C string a buffer denotes: the bytes in front of the first NUL. -/
def cstr (buf : List Byte) : List Byte := buf.takeWhile (fun b => b ≠ 0)

/-! ## The native record and the heap -/

/-- Modelled from the spec: the struct `cr_ContentStat` is declared outside contentstat-py.c; it
is "a small value holding a byte size, a checksum algorithm identifier, and a checksum string".
The C types of the members are those the getters and setters access them with. -/
structure cr_ContentStat where
  /-- Field `gint64 size`. -/
  size : Int
  /-- Field `cr_ChecksumType checksum_type`, an `int`. -/
  checksum_type : Int
  /-- Field `char *checksum`; `none` is NULL. -/
  checksum : Option (List Byte)
deriving DecidableEq, Repr

/-- The member offsets `OFFSET(member)` of `cr_ContentStat`. -/
inductive OFFSET where
  | size
  | checksum_type
  | checksum
deriving DecidableEq, Repr

/-- The heap of native records. -/
structure Heap where
  /-- The live records, by address. -/
  cells : Nat → Option cr_ContentStat
  /-- The address the next allocation returns. -/
  next : Nat
  /-- The addresses passed to `cr_contentstat_free`, most recent first. -/
  freed : List Nat

/-- The heap with the record at `p` replaced. -/
def Heap.write (h : Heap) (p : Nat) (rec : cr_ContentStat) : Heap :=
  { h with cells := fun q => if q = p then some rec else h.cells q }

/-- Allocation of a record with the given content at a fresh address. -/
def Heap.alloc (h : Heap) (rec : cr_ContentStat) : Nat × Heap :=
  (h.next, { cells := fun q => if q = h.next then some rec else h.cells q,
             next := h.next + 1,
             freed := h.freed })

/-- Modelled from the spec: the library function `cr_contentstat_free` is defined outside
contentstat-py.c; it is the "free" of the record's "allocate-initialize-free" lifecycle.  The call
`cr_contentstat_free(p, NULL)` on a non-NULL pointer ends the life of the record at `p` and is
logged; on an address that is not live it is undefined. -/
def cr_contentstat_free (h : Heap) (p : Nat) : Option Heap :=
  match h.cells p with
  | none => none
  | some _ => some { cells := fun q => if q = p then none else h.cells q,
                     next := h.next,
                     freed := p :: h.freed }

/-- The empty heap. -/
def Heap.empty : Heap := { cells := fun _ => none, next := 0, freed := [] }

/-- The read `*((gint64 *) (rec + member_offset))`; only `size` is a `gint64` member. -/
def load_gint64 (rec : cr_ContentStat) : OFFSET → Option Int
  | .size => some rec.size
  | _ => none

/-- The read `*((int *) (rec + member_offset))`; only `checksum_type` is an `int` member. -/
def load_int (rec : cr_ContentStat) : OFFSET → Option Int
  | .checksum_type => some rec.checksum_type
  | _ => none

/-- The read `*((char **) (rec + member_offset))`; only `checksum` is a `char *` member. -/
def load_str (rec : cr_ContentStat) : OFFSET → Option (Option (List Byte))
  | .checksum => some rec.checksum
  | _ => none

/-- The write `*((gint64 *) (rec + member_offset)) = val`. -/
def store_gint64 (rec : cr_ContentStat) (val : Int) : OFFSET → Option cr_ContentStat
  | .size => some { rec with size := val }
  | _ => none

/-- The write `*((int *) (rec + member_offset)) = val`. -/
def store_int (rec : cr_ContentStat) (val : Int) : OFFSET → Option cr_ContentStat
  | .checksum_type => some { rec with checksum_type := val }
  | _ => none

/-- The write `*((char **) (rec + member_offset)) = str`. -/
def store_str (rec : cr_ContentStat) (str : Option (List Byte)) : OFFSET → Option cr_ContentStat
  | .checksum => some { rec with checksum := str }
  | _ => none

/-! ## Python objects -/

/-- The wrapper object `_ContentStatObject`: the field `cr_ContentStat *stat`. -/
structure _ContentStatObject where
  /-- The held record; `none` is NULL. -/
  stat : Option Nat
deriving DecidableEq, Repr

/-- The Python values the binding tells apart. -/
inductive PyObject where
  /-- A `long` (or an instance of a subclass): passes `PyLong_Check`. -/
  | PyLong (v : Int)
  /-- An `int` (or an instance of a subclass, `bool` included): passes `PyInt_Check`. -/
  | PyInt (v : CLong)
  /-- A `str` (or an instance of a subclass): passes `PyString_Check`. -/
  | PyString (s : List Byte)
  /-- The object `Py_None`. -/
  | Py_None
  /-- A `ContentStat` object: passes `ContentStatObject_Check`. -/
  | ContentStat (o : _ContentStatObject)
  /-- Any other object (float, unicode, list, ...). -/
  | Other (tag : Nat)
deriving DecidableEq, Repr

/-- The error indicator of the interpreter after a call. -/
inductive PyErr where
  | TypeError (msg : String)
  | ValueError (msg : String)
  | CrErr_Exception (msg : String)
  /-- An `OverflowError` raised by the runtime; its message is not modelled. -/
  | OverflowError
  /-- An error raised by `PyArg_ParseTuple`; its kind and message are not modelled. -/
  | ParseError
deriving DecidableEq, Repr

/-- The runtime type test `PyLong_Check`. -/
def PyLong_Check : PyObject → Bool
  | .PyLong _ => true
  | _ => false

/-- The runtime type test `PyInt_Check`. -/
def PyInt_Check : PyObject → Bool
  | .PyInt _ => true
  | _ => false

/-- The runtime type test `PyString_Check`. -/
def PyString_Check : PyObject → Bool
  | .PyString _ => true
  | _ => false

/-- Modelled from the spec: the macro `ContentStatObject_Check` of contentstat-py.h is not among
the sources at hand; it tells whether an object is a "binding/wrapper object" of this type. -/
def ContentStatObject_Check : PyObject → Bool
  | .ContentStat _ => true
  | _ => false

/-- The runtime call `PyLong_AsLong` on an object that passes `PyLong_Check`: the value when it
fits a C `long`; otherwise -1 with `OverflowError` set.  The file calls it on such objects
only. -/
def PyLong_AsLong : PyObject → Int × Option PyErr
  | .PyLong v => if LONG_MIN ≤ v ∧ v ≤ LONG_MAX then (v, none) else (-1, some .OverflowError)
  | _ => (-1, some (.TypeError "an integer is required"))

/-- The runtime accessor `PyInt_AS_LONG` on an object that passes `PyInt_Check`.  The file calls
it on such objects only. -/
def PyInt_AS_LONG : PyObject → Int
  | .PyInt v => v.val
  | _ => 0

/-- The runtime call `PyLong_FromLongLong`. -/
def PyLong_FromLongLong (val : Int) : PyObject := .PyLong val

/-- The runtime call `PyString_FromString`: a `str` of the bytes up to the first NUL. -/
def PyString_FromString (str : List Byte) : PyObject := .PyString (cstr str)

/-- The runtime call `PyString_AsString` on a `str`: a pointer to its internal buffer. -/
def PyString_AsString : PyObject → Option (List Byte)
  | .PyString s => some s
  | _ => none

/-- Modelled from the spec: the helper `PyObject_ToStrOrNull` of typeconversion.c is not among
the sources at hand; by its name and its use in `set_str` it "translates between native and
dynamic-language value representations": a pointer to the bytes of a `str` object, NULL for any
other object. -/
def PyObject_ToStrOrNull (pyobj : PyObject) : Option (List Byte) :=
  if PyString_Check pyobj then PyString_AsString pyobj else none

/-- The glib call `g_strdup`: NULL for NULL, otherwise a fresh copy of the C string. -/
def g_strdup : Option (List Byte) → Option (List Byte)
  | none => none
  | some buf => some (cstr buf)

/-- What a call leaves behind: its return value, the error indicator it set and the heap. -/
structure Result (α : Type) where
  ret : α
  err : Option PyErr
  heap : Heap

/-! ## The functions of contentstat-py.c -/

/-- Embedding of `ContentStat_FromPyObject`: the returned pointer and the error indicator. -/
def ContentStat_FromPyObject (o : PyObject) : Option Nat × Option PyErr :=
  if !ContentStatObject_Check o then
    (none, some (.TypeError "Expected a ContentStat object."))
  else
    match o with
    | .ContentStat obj => (obj.stat, none)
    | _ => (none, none)

/-- Embedding of `check_ContentStatStatus`: the return value and the error indicator. -/
def check_ContentStatStatus (self : _ContentStatObject) : Int × Option PyErr :=
  if self.stat = none then
    (-1, some (.CrErr_Exception "Improper createrepo_c ContentStat object."))
  else
    (0, none)

/-- Embedding of `contentstat_new`; `allocated` tells whether `tp_alloc` returned an object. -/
def contentstat_new (allocated : Bool) : Option _ContentStatObject :=
  if allocated then some { stat := none } else none

/-- The dereference of `self->stat`: the record it points to. -/
def deref (h : Heap) (self : _ContentStatObject) : Option (Nat × cr_ContentStat) :=
  match self.stat with
  | none => none
  | some p =>
    match h.cells p with
    | none => none
    | some rec => some (p, rec)

/-- Embedding of `get_num`. -/
def get_num (h : Heap) (self : _ContentStatObject) (member_offset : OFFSET) :
    Option (Result (Option PyObject)) :=
  if (check_ContentStatStatus self).1 ≠ 0 then
    some { ret := none, err := (check_ContentStatStatus self).2, heap := h }
  else
    match deref h self with
    | none => none
    | some (_, rec) =>
      match load_gint64 rec member_offset with
      | none => none
      | some val => some { ret := some (PyLong_FromLongLong val), err := none, heap := h }

/-- Embedding of `get_int`. -/
def get_int (h : Heap) (self : _ContentStatObject) (member_offset : OFFSET) :
    Option (Result (Option PyObject)) :=
  if (check_ContentStatStatus self).1 ≠ 0 then
    some { ret := none, err := (check_ContentStatStatus self).2, heap := h }
  else
    match deref h self with
    | none => none
    | some (_, rec) =>
      match load_int rec member_offset with
      | none => none
      | some val => some { ret := some (PyLong_FromLongLong val), err := none, heap := h }

/-- Embedding of `get_str`. -/
def get_str (h : Heap) (self : _ContentStatObject) (member_offset : OFFSET) :
    Option (Result (Option PyObject)) :=
  if (check_ContentStatStatus self).1 ≠ 0 then
    some { ret := none, err := (check_ContentStatStatus self).2, heap := h }
  else
    match deref h self with
    | none => none
    | some (_, rec) =>
      match load_str rec member_offset with
      | none => none
      | some none => some { ret := some .Py_None, err := none, heap := h }
      | some (some str) => some { ret := some (PyString_FromString str), err := none, heap := h }

/-- Embedding of `set_num`. -/
def set_num (h : Heap) (self : _ContentStatObject) (value : PyObject) (member_offset : OFFSET) :
    Option (Result Int) :=
  if (check_ContentStatStatus self).1 ≠ 0 then
    some { ret := -1, err := (check_ContentStatStatus self).2, heap := h }
  else
    let conv : Option (Int × Option PyErr) :=
      if PyLong_Check value then some (PyLong_AsLong value)
      else if PyInt_Check value then some (PyInt_AS_LONG value, none)
      else none
    match conv with
    | none => some { ret := -1, err := some (.ValueError "Number expected!"), heap := h }
    | some (val, e) =>
      match deref h self with
      | none => none
      | some (p, rec) =>
        match store_gint64 rec val member_offset with
        | none => none
        | some rec' => some { ret := 0, err := e, heap := h.write p rec' }

/-- Embedding of `set_int`. -/
def set_int (h : Heap) (self : _ContentStatObject) (value : PyObject) (member_offset : OFFSET) :
    Option (Result Int) :=
  if (check_ContentStatStatus self).1 ≠ 0 then
    some { ret := -1, err := (check_ContentStatStatus self).2, heap := h }
  else
    let conv : Option (Int × Option PyErr) :=
      if PyLong_Check value then some (PyLong_AsLong value)
      else if PyInt_Check value then some (PyInt_AS_LONG value, none)
      else none
    match conv with
    | none => some { ret := -1, err := some (.ValueError "Number expected!"), heap := h }
    | some (val, e) =>
      match deref h self with
      | none => none
      | some (p, rec) =>
        match store_int rec (cast_int val) member_offset with
        | none => none
        | some rec' => some { ret := 0, err := e, heap := h.write p rec' }

/-- Embedding of `set_str`. -/
def set_str (h : Heap) (self : _ContentStatObject) (value : PyObject) (member_offset : OFFSET) :
    Option (Result Int) :=
  if (check_ContentStatStatus self).1 ≠ 0 then
    some { ret := -1, err := (check_ContentStatStatus self).2, heap := h }
  else if !PyString_Check value && value ≠ .Py_None then
    some { ret := -1, err := some (.ValueError "String or None expected!"), heap := h }
  else
    match deref h self with
    | none => none
    | some (p, rec) =>
      match store_str rec (g_strdup (PyObject_ToStrOrNull value)) member_offset with
      | none => none
      | some rec' => some { ret := 0, err := none, heap := h.write p rec' }

/-- The runtime call `PyArg_ParseTuple(args, "i:contentstat_init", &type)`: the tuple must hold
exactly one integer that fits a C `int`.  Objects of the class `Other` are taken to have no
integer conversion. -/
def PyArg_ParseTuple_i (args : List PyObject) : Option Int :=
  match args with
  | [.PyInt v] => if INT_MIN ≤ v.val ∧ v.val ≤ INT_MAX then some v.val else none
  | [.PyLong v] => if INT_MIN ≤ v ∧ v ≤ INT_MAX then some v else none
  | _ => none

/-- What the library call `cr_contentstat_new(type, &tmp_err)` hands back.  The function is
defined outside contentstat-py.c; the binding takes its behaviour as a parameter. -/
structure NewOutcome where
  /-- The content of the record returned; `none` when NULL is returned. -/
  record : Option cr_ContentStat
  /-- The message of the `GError` stored in `tmp_err`; `none` when it is left NULL. -/
  err : Option String

/-- What `contentstat_init` leaves behind. -/
structure InitResult where
  ret : Int
  err : Option PyErr
  heap : Heap
  self : _ContentStatObject

/-- Embedding of `contentstat_init`. -/
def contentstat_init (h : Heap) (self : _ContentStatObject) (args : List PyObject)
    (cr_contentstat_new : Int → NewOutcome) : Option InitResult :=
  match PyArg_ParseTuple_i args with
  | none => some { ret := -1, err := some .ParseError, heap := h, self := self }
  | some type =>
    -- Free all previous resources when reinitialization
    let released : Option Heap :=
      match self.stat with
      | none => some h
      | some p => cr_contentstat_free h p
    match released with
    | none => none
    | some h1 =>
      -- Init
      let out := cr_contentstat_new type
      let stored : Option Nat × Heap :=
        match out.record with
        | none => (none, h1)
        | some rec => (some (h1.alloc rec).1, (h1.alloc rec).2)
      match out.err with
      | some msg =>
        some { ret := -1,
               err := some (.CrErr_Exception ("ContentStat initialization failed: " ++ msg)),
               heap := stored.2, self := { stat := stored.1 } }
      | none => some { ret := 0, err := none, heap := stored.2, self := { stat := stored.1 } }

/-- Embedding of `contentstat_dealloc`: the heap after the held record is released.  The wrapper
object itself is gone afterwards (`tp_free`). -/
def contentstat_dealloc (h : Heap) (self : _ContentStatObject) : Option Heap :=
  match self.stat with
  | none => some h
  | some p => cr_contentstat_free h p

/-- One entry of a getset table: name, getter, setter and closure. -/
structure PyGetSetDef where
  name : String
  get : Heap → _ContentStatObject → OFFSET → Option (Result (Option PyObject))
  set : Heap → _ContentStatObject → PyObject → OFFSET → Option (Result Int)
  closure : OFFSET

/-- Embedding of the table `contentstat_getsetters` (without the sentinel). -/
def contentstat_getsetters : List PyGetSetDef :=
  [ { name := "size",          get := get_num, set := set_num, closure := .size },
    { name := "checksum_type", get := get_int, set := set_int, closure := .checksum_type },
    { name := "checksum",      get := get_str, set := set_str, closure := .checksum } ]

/-- An attribute of the type: a position in `contentstat_getsetters`. -/
abbrev Attr : Type := Fin 3

/-- The entry of `contentstat_getsetters` at a position. -/
def entry (a : Attr) : PyGetSetDef := contentstat_getsetters.get ⟨a.val, a.isLt⟩

/-- The runtime reading an attribute: the getter of its entry, called with its closure. -/
def getattr (h : Heap) (self : _ContentStatObject) (a : Attr) :
    Option (Result (Option PyObject)) :=
  (entry a).get h self (entry a).closure

/-- The runtime assigning an attribute: the setter of its entry, called with its closure. -/
def setattr (h : Heap) (self : _ContentStatObject) (a : Attr) (value : PyObject) :
    Option (Result Int) :=
  (entry a).set h self value (entry a).closure

/-- The attribute `size`. -/
def Attr.size : Attr := 0

/-- The attribute `checksum_type`. -/
def Attr.checksum_type : Attr := 1

/-- The attribute `checksum`. -/
def Attr.checksum : Attr := 2

/-- A sequence of attribute assignments on one object, each started from the heap the one before
left, whether it succeeded or failed. -/
def setattrs (h : Heap) (self : _ContentStatObject) : List (Attr × PyObject) → Option Heap
  | [] => some h
  | (a, value) :: rest =>
    match setattr h self a value with
    | none => none
    | some r => setattrs r.heap self rest

/-! ## The lifetime of wrapper objects -/

/-- The wrapper objects of a program and the heap of native records.  An object is named by its
position in `objs`; the entry is `none` once the object is deallocated. -/
structure World where
  heap : Heap
  objs : List (Option _ContentStatObject)

/-- The calls the runtime makes on the type. -/
inductive Op where
  /-- A call of `tp_new`; `allocated` tells whether `tp_alloc` returned an object. -/
  | new (allocated : Bool)
  /-- A call of `tp_init` on object `i`; `cr_contentstat_new` is the behaviour of the library call
  during it. -/
  | init (i : Nat) (args : List PyObject) (cr_contentstat_new : Int → NewOutcome)
  /-- An attribute assignment on object `i`. -/
  | setattr (i : Nat) (a : Attr) (value : PyObject)
  /-- A call of `tp_dealloc` on object `i`. -/
  | dealloc (i : Nat)

/-- One call.  The runtime calls `tp_init`, setters and `tp_dealloc` on live objects only: a call
on an object that does not exist or is deallocated is skipped.  The result is `none` when the
call runs into undefined behaviour. -/
def step (w : World) : Op → Option World
  | .new allocated =>
    match contentstat_new allocated with
    | none => some w
    | some o => some { w with objs := w.objs ++ [some o] }
  | .init i args cr_contentstat_new =>
    match w.objs[i]? with
    | some (some self) =>
      match contentstat_init w.heap self args cr_contentstat_new with
      | none => none
      | some r => some { heap := r.heap, objs := w.objs.set i (some r.self) }
    | _ => some w
  | .setattr i a value =>
    match w.objs[i]? with
    | some (some self) =>
      match setattr w.heap self a value with
      | none => none
      | some r => some { w with heap := r.heap }
    | _ => some w
  | .dealloc i =>
    match w.objs[i]? with
    | some (some self) =>
      match contentstat_dealloc w.heap self with
      | none => none
      | some h => some { heap := h, objs := w.objs.set i none }
    | _ => some w

/-- A sequence of calls. -/
def run (w : World) : List Op → Option World
  | [] => some w
  | op :: ops =>
    match step w op with
    | none => none
    | some w' => run w' ops

/-- The world at program start: no record and no object. -/
def World.start : World := { heap := Heap.empty, objs := [] }

/-! ## Definitions used to state the properties -/

/-- The mathematical integer a Python number object stands for. -/
def intValue : PyObject → Option Int
  | .PyLong v => some v
  | .PyInt v => some v.val
  | _ => none

/-- The C `long` that both numeric setters take from their argument, with the error indicator
the conversion leaves; `none` when the argument is neither a `long` nor an `int`. -/
def numArg (value : PyObject) : Option (Int × Option PyErr) :=
  if PyLong_Check value then some (PyLong_AsLong value)
  else if PyInt_Check value then some (PyInt_AS_LONG value, none)
  else none

/-- The `char *` that `set_str` stores for an argument it accepts. -/
def strArg (value : PyObject) : Option (List Byte) := g_strdup (PyObject_ToStrOrNull value)

/-- A heap with one live record, at address 0. -/
def sampleHeap : Heap := (Heap.empty.alloc { size := 7, checksum_type := 2, checksum := none }).2

/-- A wrapper object holding the record at address 0. -/
def sampleObj : _ContentStatObject := { stat := some 0 }

/-- An assignment of `value` to attribute `a` succeeds and a following read of `a` returns
`expected`, both without an error set. -/
def RoundTrips (h : Heap) (self : _ContentStatObject) (a : Attr) (value expected : PyObject) :
    Prop :=
  ∃ r, setattr h self a value = some r ∧ r.ret = 0 ∧ r.err = none ∧
    ∃ g, getattr r.heap self a = some g ∧ g.ret = some expected ∧ g.err = none

/-- The Python value a getter hands back for an attribute of a record. -/
def fieldValue (rec : cr_ContentStat) (a : Attr) : PyObject :=
  match a with
  | 0 => .PyLong rec.size
  | 1 => .PyLong rec.checksum_type
  | 2 => match rec.checksum with
         | none => .Py_None
         | some str => .PyString (cstr str)

/-- What a caller sees of a call: the return value and the error indicator. -/
def observe {α : Type} (x : Option (Result α)) : Option (α × Option PyErr) :=
  x.map (fun r => (r.ret, r.err))

/-- The error every getter and setter sets on an object without a record. -/
def improperObject : Option PyErr :=
  some (.CrErr_Exception "Improper createrepo_c ContentStat object.")

/-- A `char *` field is NULL or holds a C string: no NUL among the bytes of the string. -/
def CStrOk (str : Option (List Byte)) : Prop :=
  ∀ s, str = some s → (0 : Byte) ∉ s

/-- A sample behaviour of `cr_contentstat_new`: a zeroed record that carries the requested type,
and no error. -/
def sampleNew (type : Int) : NewOutcome :=
  { record := some { size := 0, checksum_type := type, checksum := none }, err := none }

/-- The record that object `i` holds: `none` when the object does not exist, is deallocated or
has `stat` NULL. -/
def held (objs : List (Option _ContentStatObject)) (i : Nat) : Option Nat :=
  match objs[i]? with
  | some (some o) => o.stat
  | _ => none

/-- The pointer stored in a slot of `World.objs`. -/
def slotStat : Option _ContentStatObject → Option Nat
  | some o => o.stat
  | none => none

/-- The held pointers with the one of object `i` replaced. -/
def rebind (hd : Nat → Option Nat) (i : Nat) (v : Option Nat) : Nat → Option Nat :=
  fun j => if j = i then v else hd j

/-- Ownership invariant of a heap and the pointers `hd` that the live objects hold: no address
is freed twice, freed addresses were allocated and are dead, addresses not yet allocated are
dead, the live records are the held ones, no record is held twice, and every allocated address
is freed or live. -/
def Owned (h : Heap) (hd : Nat → Option Nat) : Prop :=
  h.freed.Nodup ∧
  (∀ p ∈ h.freed, p < h.next ∧ h.cells p = none) ∧
  (∀ p, h.next ≤ p → h.cells p = none) ∧
  (∀ p, h.cells p ≠ none ↔ ∃ i, hd i = some p) ∧
  (∀ i j p, hd i = some p → hd j = some p → i = j) ∧
  (∀ p, p < h.next → p ∈ h.freed ∨ h.cells p ≠ none)

/-- A sample run: an object is created, initialised twice,
assigned to, and deallocated; a second object is created and a call with an unparsable argument
is made on it. -/
def sampleOps : List Op :=
  [.new true, .init 0 [.PyInt ⟨1, by decide⟩] sampleNew, .init 0 [.PyLong 2] sampleNew,
   .setattr 0 Attr.size (.PyLong 10), .new true, .init 1 [.Py_None] sampleNew, .dealloc 0]

/-! ## Basic facts -/

theorem entry_size : entry Attr.size = ⟨"size", get_num, set_num, .size⟩ := rfl

theorem entry_checksum_type :
    entry Attr.checksum_type = ⟨"checksum_type", get_int, set_int, .checksum_type⟩ := rfl

theorem entry_checksum : entry Attr.checksum = ⟨"checksum", get_str, set_str, .checksum⟩ := rfl

theorem deref_eq {h : Heap} {self : _ContentStatObject} {p : Nat} {rec : cr_ContentStat}
    (hold : deref h self = some (p, rec)) : self.stat = some p ∧ h.cells p = some rec := by
  unfold deref at hold
  cases hs : self.stat with
  | none => simp [hs] at hold
  | some q =>
    simp only [hs] at hold
    cases hc : h.cells q with
    | none => simp [hc] at hold
    | some r =>
      simp only [hc, Option.some.injEq, Prod.mk.injEq] at hold
      obtain ⟨rfl, rfl⟩ := hold
      exact ⟨rfl, hc⟩

theorem deref_write {h : Heap} {self : _ContentStatObject} {p : Nat} {rec : cr_ContentStat}
    (hold : deref h self = some (p, rec)) (rec' : cr_ContentStat) :
    deref (h.write p rec') self = some (p, rec') := by
  have hs := (deref_eq hold).1
  simp [deref, hs, Heap.write]

theorem check_of_deref {h : Heap} {self : _ContentStatObject} {p : Nat} {rec : cr_ContentStat}
    (hold : deref h self = some (p, rec)) : check_ContentStatStatus self = (0, none) := by
  have hs := (deref_eq hold).1
  simp [check_ContentStatStatus, hs]

theorem numArg_of_intValue {value : PyObject} {v : Int} (hval : intValue value = some v)
    (hv : LONG_MIN ≤ v ∧ v ≤ LONG_MAX) : numArg value = some (v, none) := by
  cases value <;> simp [intValue] at hval
  · subst hval
    simp [numArg, PyLong_Check, PyLong_AsLong, hv]
  · subst hval
    simp [numArg, PyLong_Check, PyInt_Check, PyInt_AS_LONG]

theorem get_num_size {h : Heap} {self : _ContentStatObject} {p : Nat} {rec : cr_ContentStat}
    (hold : deref h self = some (p, rec)) :
    get_num h self .size = some { ret := some (.PyLong rec.size), err := none, heap := h } := by
  simp [get_num, check_of_deref hold, hold, load_gint64, PyLong_FromLongLong]

theorem get_int_checksum_type {h : Heap} {self : _ContentStatObject} {p : Nat}
    {rec : cr_ContentStat} (hold : deref h self = some (p, rec)) :
    get_int h self .checksum_type
      = some { ret := some (.PyLong rec.checksum_type), err := none, heap := h } := by
  simp [get_int, check_of_deref hold, hold, load_int, PyLong_FromLongLong]

theorem get_str_checksum {h : Heap} {self : _ContentStatObject} {p : Nat}
    {rec : cr_ContentStat} (hold : deref h self = some (p, rec)) :
    get_str h self .checksum
      = some { ret := some (match rec.checksum with
                            | none => .Py_None
                            | some str => .PyString (cstr str)),
               err := none, heap := h } := by
  cases hc : rec.checksum <;>
    simp [get_str, check_of_deref hold, hold, load_str, PyString_FromString, hc]

theorem set_num_size {h : Heap} {self : _ContentStatObject} {p : Nat} {rec : cr_ContentStat}
    (hold : deref h self = some (p, rec)) (value : PyObject) :
    set_num h self value .size
      = some (match numArg value with
              | none => { ret := -1, err := some (.ValueError "Number expected!"), heap := h }
              | some (val, e) =>
                { ret := 0, err := e, heap := h.write p { rec with size := val } }) := by
  unfold numArg
  cases value <;>
    simp [set_num, check_of_deref hold, hold, PyLong_Check, PyInt_Check, store_gint64]

theorem set_int_checksum_type {h : Heap} {self : _ContentStatObject} {p : Nat}
    {rec : cr_ContentStat} (hold : deref h self = some (p, rec)) (value : PyObject) :
    set_int h self value .checksum_type
      = some (match numArg value with
              | none => { ret := -1, err := some (.ValueError "Number expected!"), heap := h }
              | some (val, e) =>
                { ret := 0, err := e,
                  heap := h.write p { rec with checksum_type := cast_int val } }) := by
  unfold numArg
  cases value <;>
    simp [set_int, check_of_deref hold, hold, PyLong_Check, PyInt_Check, store_int]

theorem set_str_checksum {h : Heap} {self : _ContentStatObject} {p : Nat}
    {rec : cr_ContentStat} (hold : deref h self = some (p, rec)) (value : PyObject) :
    set_str h self value .checksum
      = some (if PyString_Check value = false ∧ value ≠ .Py_None then
                { ret := -1, err := some (.ValueError "String or None expected!"), heap := h }
              else
                { ret := 0, err := none,
                  heap := h.write p { rec with checksum := strArg value } }) := by
  unfold strArg
  cases value <;>
    simp [set_str, check_of_deref hold, hold, PyString_Check, store_str]

theorem long_range (v : Int) : (-2 ^ 63 ≤ v ∧ v < 2 ^ 63) ↔ (LONG_MIN ≤ v ∧ v ≤ LONG_MAX) := by
  unfold LONG_MIN LONG_MAX
  norm_num
  omega

theorem cast_int_of_range {v : Int} (hv : -2 ^ 31 ≤ v ∧ v < 2 ^ 31) : cast_int v = v := by
  unfold cast_int
  norm_num at hv
  omega

theorem cast_int_range (v : Int) : INT_MIN ≤ cast_int v ∧ cast_int v ≤ INT_MAX := by
  unfold cast_int INT_MIN INT_MAX
  omega

theorem cstr_eq_self_iff (s : List Byte) : cstr s = s ↔ (0 : Byte) ∉ s := by
  unfold cstr
  rw [List.takeWhile_eq_self_iff]
  constructor
  · intro hs h0
    simpa using hs 0 h0
  · intro hs x hx
    have : x ≠ 0 := fun hx0 => hs (hx0 ▸ hx)
    simpa using this

theorem cstr_idem (s : List Byte) : cstr (cstr s) = cstr s := by
  unfold cstr
  exact List.takeWhile_idem

theorem zero_not_mem_cstr (s : List Byte) : (0 : Byte) ∉ cstr s :=
  (cstr_eq_self_iff (cstr s)).1 (cstr_idem s)

theorem strArg_ok (value : PyObject) : CStrOk (strArg value) := by
  intro s hs
  cases value <;> simp [strArg, PyObject_ToStrOrNull, PyString_Check, PyString_AsString,
    g_strdup] at hs
  subst hs
  exact zero_not_mem_cstr _

theorem getattr_of_deref {h : Heap} {self : _ContentStatObject} {p : Nat} {rec : cr_ContentStat}
    (hold : deref h self = some (p, rec)) (a : Attr) :
    getattr h self a = some { ret := some (fieldValue rec a), err := none, heap := h } := by
  fin_cases a
  · exact get_num_size hold
  · exact get_int_checksum_type hold
  · exact get_str_checksum hold

/-- What an attribute assignment does to the record the object holds. -/
theorem setattr_of_deref {h : Heap} {self : _ContentStatObject} {p : Nat} {rec : cr_ContentStat}
    (hold : deref h self = some (p, rec)) (a : Attr) (value : PyObject) :
    ∃ r rec', setattr h self a value = some r ∧
      ((r.ret = -1 ∧ r.heap = h ∧ rec' = rec) ∨ (r.ret = 0 ∧ r.heap = h.write p rec')) ∧
      (a ≠ Attr.size → rec'.size = rec.size) ∧
      (a ≠ Attr.checksum_type → rec'.checksum_type = rec.checksum_type) ∧
      (rec'.checksum = rec.checksum ∨ (a = Attr.checksum ∧ rec'.checksum = strArg value)) := by
  fin_cases a
  · refine ⟨_, (match numArg value with
               | none => rec
               | some (val, _) => { rec with size := val }), set_num_size hold value, ?_⟩
    cases hn : numArg value <;> simp [Attr.size, Attr.checksum_type]
  · refine ⟨_, (match numArg value with
               | none => rec
               | some (val, _) => { rec with checksum_type := cast_int val }),
             set_int_checksum_type hold value, ?_⟩
    cases hn : numArg value <;> simp [Attr.size, Attr.checksum_type]
  · refine ⟨_, (if PyString_Check value = false ∧ value ≠ .Py_None then rec
               else { rec with checksum := strArg value }),
             set_str_checksum hold value, ?_⟩
    by_cases hc : PyString_Check value = false ∧ value ≠ .Py_None
    · simp [hc, Attr.size, Attr.checksum_type]
    · simp only [hc, if_false]
      simp [Attr.size, Attr.checksum_type, Attr.checksum]

theorem deref_after_setattr {h : Heap} {self : _ContentStatObject} {p : Nat}
    {rec rec' : cr_ContentStat} (hold : deref h self = some (p, rec)) {r : Result Int}
    (hr : (r.ret = -1 ∧ r.heap = h ∧ rec' = rec) ∨ (r.ret = 0 ∧ r.heap = h.write p rec')) :
    deref r.heap self = some (p, rec') := by
  rcases hr with ⟨_, hh, he⟩ | ⟨_, hh⟩
  · rw [hh, he]; exact hold
  · rw [hh]; exact deref_write hold rec'

/-- What a call of `contentstat_init` whose arguments parse does: the held record, if any, is
released, and `stat` is set to what `cr_contentstat_new` returns. -/
theorem init_effect {h : Heap} {self : _ContentStatObject} {args : List PyObject}
    {f : Int → NewOutcome} {r : InitResult} {t : Int}
    (hparse : PyArg_ParseTuple_i args = some t)
    (hinit : contentstat_init h self args f = some r) :
    ∃ h1, contentstat_dealloc h self = some h1 ∧
      (((f t).record = none ∧ r.heap = h1 ∧ r.self.stat = none) ∨
       (∃ rec, (f t).record = some rec ∧ r.heap = (h1.alloc rec).2 ∧
          r.self.stat = some h1.next)) ∧
      (r.ret = 0 ↔ (f t).err = none) := by
  unfold contentstat_init at hinit
  simp only [hparse] at hinit
  unfold contentstat_dealloc
  cases hrel : (match self.stat with
                | none => some h
                | some p => cr_contentstat_free h p) with
  | none => simp [hrel] at hinit
  | some h1 =>
    simp only [hrel] at hinit
    refine ⟨h1, rfl, ?_⟩
    cases hrec : (f t).record <;> cases herr : (f t).err <;>
      simp only [hrec, herr, Option.some.injEq] at hinit <;> subst hinit <;>
      simp [Heap.alloc]

theorem init_parse_failure (h : Heap) (self : _ContentStatObject) (args : List PyObject)
    (f : Int → NewOutcome) (hparse : PyArg_ParseTuple_i args = none) :
    contentstat_init h self args f
      = some { ret := -1, err := some .ParseError, heap := h, self := self } := by
  unfold contentstat_init
  simp [hparse]

theorem init_ret_zero_parsed {h : Heap} {self : _ContentStatObject} {args : List PyObject}
    {f : Int → NewOutcome} {r : InitResult}
    (hinit : contentstat_init h self args f = some r) (hret : r.ret = 0) :
    ∃ t, PyArg_ParseTuple_i args = some t := by
  cases hp : PyArg_ParseTuple_i args with
  | some t => exact ⟨t, rfl⟩
  | none =>
    rw [init_parse_failure h self args f hp] at hinit
    have := Option.some.inj hinit
    subst this
    simp at hret

theorem deref_alloc (h : Heap) (rec : cr_ContentStat) :
    deref (h.alloc rec).2 { stat := some h.next } = some (h.next, rec) := by
  simp [deref, Heap.alloc]

/-- A sequence of assignments on an object that holds a record with a well-formed checksum
runs to its end and leaves such a record. -/
theorem setattrs_keeps (self : _ContentStatObject) (p : Nat) (calls : List (Attr × PyObject)) :
    ∀ (h : Heap) (rec : cr_ContentStat), deref h self = some (p, rec) → CStrOk rec.checksum →
      ∃ h' rec', setattrs h self calls = some h' ∧ deref h' self = some (p, rec') ∧
        CStrOk rec'.checksum := by
  induction calls with
  | nil =>
    intro h rec hold hok
    exact ⟨h, rec, rfl, hold, hok⟩
  | cons c rest ih =>
    intro h rec hold hok
    obtain ⟨a, value⟩ := c
    obtain ⟨r, rec', hs, hr, -, -, hsum⟩ := setattr_of_deref hold a value
    have hok' : CStrOk rec'.checksum := by
      rcases hsum with hc | ⟨-, hc⟩
      · rw [hc]; exact hok
      · rw [hc]; exact strArg_ok value
    obtain ⟨h', rec'', hrun, hd, hk⟩ := ih r.heap rec' (deref_after_setattr hold hr) hok'
    refine ⟨h', rec'', ?_, hd, hk⟩
    simp only [setattrs, hs]
    exact hrun

/-! ## Ownership -/

theorem held_append_new (objs : List (Option _ContentStatObject)) :
    held (objs ++ [some { stat := none }]) = held objs := by
  funext i
  unfold held
  by_cases hlt : i < objs.length
  · rw [List.getElem?_append_left hlt]
  · have hle : objs.length ≤ i := Nat.le_of_not_lt hlt
    rw [List.getElem?_append_right hle, List.getElem?_eq_none hle]
    cases hk : i - objs.length with
    | zero => simp
    | succ n => simp

theorem held_set {objs : List (Option _ContentStatObject)} {i : Nat}
    {self : _ContentStatObject} (hi : objs[i]? = some (some self))
    (slot : Option _ContentStatObject) :
    held (objs.set i slot) = rebind (held objs) i (slotStat slot) := by
  have hlt : i < objs.length := by
    by_contra hge
    rw [List.getElem?_eq_none (Nat.le_of_not_lt hge)] at hi
    exact Option.noConfusion hi
  funext j
  by_cases hj : j = i
  · subst hj
    cases slot <;> simp [held, List.getElem?_set, hlt, slotStat, rebind]
  · have hne : i ≠ j := fun e => hj e.symm
    simp [held, List.getElem?_set_ne hne, rebind, hj]

theorem set_same {α : Type} (l : List α) (i : Nat) (a : α) (hi : l[i]? = some a) :
    l.set i a = l := by
  apply List.ext_getElem?
  intro j
  rw [List.getElem?_set]
  split
  · rename_i hij
    subst hij
    split
    · exact hi.symm
    · rename_i hge
      rw [List.getElem?_eq_none (Nat.le_of_not_lt hge)]
  · rfl

theorem owned_start : Owned Heap.empty (held []) := by
  refine ⟨List.nodup_nil, ?_, ?_, ?_, ?_, ?_⟩
  · intro p hp
    exact absurd hp (List.not_mem_nil p)
  · intro p _
    rfl
  · intro p
    simp [Heap.empty, held]
  · intro i j p hi
    simp [held] at hi
  · intro p hp
    exact absurd hp (Nat.not_lt_zero p)

/-- Releasing the record an object holds keeps the invariant, and never frees a dead address. -/
theorem owned_release {h : Heap} {hd : Nat → Option Nat} (inv : Owned h hd) {i p : Nat}
    (hi : hd i = some p) :
    ∃ h1, cr_contentstat_free h p = some h1 ∧ h1.freed = p :: h.freed ∧ h1.next = h.next ∧
      Owned h1 (rebind hd i none) := by
  obtain ⟨hnd, hfr, hfresh, hlive, huniq, hacc⟩ := inv
  have hp : h.cells p ≠ none := (hlive p).2 ⟨i, hi⟩
  cases hc : h.cells p with
  | none => exact absurd hc hp
  | some rec =>
    refine ⟨{ cells := fun q => if q = p then none else h.cells q, next := h.next,
              freed := p :: h.freed }, by simp [cr_contentstat_free, hc], rfl, rfl, ?_⟩
    have hpf : p ∉ h.freed := fun hm => hp (hfr p hm).2
    have hpn : p < h.next := by
      by_contra hge
      exact hp (hfresh p (Nat.le_of_not_lt hge))
    refine ⟨List.nodup_cons.2 ⟨hpf, hnd⟩, ?_, ?_, ?_, ?_, ?_⟩
    · intro q hq
      rcases List.mem_cons.1 hq with rfl | hq
      · exact ⟨hpn, by simp⟩
      · refine ⟨(hfr q hq).1, ?_⟩
        show (if q = p then none else h.cells q) = none
        split
        · rfl
        · exact (hfr q hq).2
    · intro q hq
      show (if q = p then none else h.cells q) = none
      split
      · rfl
      · exact hfresh q hq
    · intro q
      show (if q = p then none else h.cells q) ≠ none ↔ _
      constructor
      · intro hq
        by_cases hqp : q = p
        · simp [hqp] at hq
        · simp only [hqp, if_false] at hq
          obtain ⟨j, hj⟩ := (hlive q).1 hq
          have hji : j ≠ i := by
            rintro rfl
            rw [hi] at hj
            exact hqp (Option.some.inj hj).symm
          exact ⟨j, by simp [rebind, hji, hj]⟩
      · rintro ⟨j, hj⟩
        by_cases hji : j = i
        · simp [rebind, hji] at hj
        · simp only [rebind, hji, if_false] at hj
          have hqp : q ≠ p := by
            rintro rfl
            exact hji (huniq j i q hj hi)
          simp only [hqp, if_false]
          exact (hlive q).2 ⟨j, hj⟩
    · intro j k q hj hk
      by_cases hji : j = i
      · simp [rebind, hji] at hj
      · by_cases hki : k = i
        · simp [rebind, hki] at hk
        · simp only [rebind, hji, hki, if_false] at hj hk
          exact huniq j k q hj hk
    · intro q hq
      by_cases hqp : q = p
      · left
        rw [hqp]
        exact List.mem_cons_self p h.freed
      · rcases hacc q hq with hm | hl
        · left
          exact List.mem_cons_of_mem p hm
        · right
          show (if q = p then none else h.cells q) ≠ none
          simp only [hqp, if_false]
          exact hl

/-- Storing a freshly allocated record in an object that holds none keeps the invariant. -/
theorem owned_acquire {h : Heap} {hd : Nat → Option Nat} (inv : Owned h hd) {i : Nat}
    (hi : hd i = none) (rec : cr_ContentStat) :
    Owned (h.alloc rec).2 (rebind hd i (some h.next)) := by
  obtain ⟨hnd, hfr, hfresh, hlive, huniq, hacc⟩ := inv
  have hnone : ∀ j, hd j ≠ some h.next := by
    intro j hj
    exact (hlive h.next).2 ⟨j, hj⟩ (hfresh h.next (Nat.le_refl _))
  refine ⟨hnd, ?_, ?_, ?_, ?_, ?_⟩
  · intro q hq
    have hlt := (hfr q hq).1
    refine ⟨Nat.lt_succ_of_lt hlt, ?_⟩
    show (if q = h.next then some rec else h.cells q) = none
    rw [if_neg (Nat.ne_of_lt hlt)]
    exact (hfr q hq).2
  · intro q hq
    have hq' : h.next + 1 ≤ q := hq
    show (if q = h.next then some rec else h.cells q) = none
    rw [if_neg (by omega)]
    exact hfresh q (by omega)
  · intro q
    show (if q = h.next then some rec else h.cells q) ≠ none ↔ _
    constructor
    · intro hq
      by_cases hqn : q = h.next
      · exact ⟨i, by simp [rebind, hqn]⟩
      · simp only [hqn, if_false] at hq
        obtain ⟨j, hj⟩ := (hlive q).1 hq
        have hji : j ≠ i := by
          rintro rfl
          rw [hi] at hj
          exact Option.noConfusion hj
        exact ⟨j, by simp [rebind, hji, hj]⟩
    · rintro ⟨j, hj⟩
      by_cases hqn : q = h.next
      · simp [hqn]
      · simp only [hqn, if_false]
        by_cases hji : j = i
        · simp only [rebind, hji, if_true] at hj
          exact absurd (Option.some.inj hj).symm hqn
        · simp only [rebind, hji, if_false] at hj
          exact (hlive q).2 ⟨j, hj⟩
  · intro j k q hj hk
    by_cases hji : j = i <;> by_cases hki : k = i
    · rw [hji, hki]
    · simp only [rebind, hji, if_true] at hj
      simp only [rebind, hki, if_false] at hk
      rw [← Option.some.inj hj] at hk
      exact absurd hk (hnone k)
    · simp only [rebind, hki, if_true] at hk
      simp only [rebind, hji, if_false] at hj
      rw [← Option.some.inj hk] at hj
      exact absurd hj (hnone j)
    · simp only [rebind, hji, hki, if_false] at hj hk
      exact huniq j k q hj hk
  · intro q hq
    have hq' : q < h.next + 1 := hq
    by_cases hqn : q = h.next
    · right
      show (if q = h.next then some rec else h.cells q) ≠ none
      simp [hqn]
    · rcases hacc q (by omega) with hm | hl
      · exact Or.inl hm
      · right
        show (if q = h.next then some rec else h.cells q) ≠ none
        simp only [hqn, if_false]
        exact hl

/-- Overwriting a live record keeps the invariant. -/
theorem owned_write {h : Heap} {hd : Nat → Option Nat} (inv : Owned h hd) {p : Nat}
    (hp : h.cells p ≠ none) (rec : cr_ContentStat) : Owned (h.write p rec) hd := by
  obtain ⟨hnd, hfr, hfresh, hlive, huniq, hacc⟩ := inv
  have hcell : ∀ q, (h.write p rec).cells q = none ↔ h.cells q = none := by
    intro q
    show (if q = p then some rec else h.cells q) = none ↔ _
    by_cases hqp : q = p
    · simp [hqp, hp]
    · simp [hqp]
  refine ⟨hnd, ?_, ?_, ?_, huniq, ?_⟩
  · intro q hq
    exact ⟨(hfr q hq).1, (hcell q).2 (hfr q hq).2⟩
  · intro q hq
    exact (hcell q).2 (hfresh q hq)
  · intro q
    rw [Ne, hcell q]
    exact hlive q
  · intro q hq
    rcases hacc q hq with hm | hl
    · exact Or.inl hm
    · right
      rw [Ne, hcell q]
      exact hl

theorem rebind_self {hd : Nat → Option Nat} {i : Nat} {v : Option Nat} (hi : hd i = v) :
    rebind hd i v = hd := by
  funext j
  unfold rebind
  split
  · rename_i hj
    rw [hj, hi]
  · rfl

theorem rebind_rebind (hd : Nat → Option Nat) (i : Nat) (u v : Option Nat) :
    rebind (rebind hd i u) i v = rebind hd i v := by
  funext j
  unfold rebind
  split <;> rfl

theorem held_of_slot {objs : List (Option _ContentStatObject)} {i : Nat}
    {self : _ContentStatObject} (hi : objs[i]? = some (some self)) :
    held objs i = self.stat := by
  simp [held, hi]

theorem slot_of_held {objs : List (Option _ContentStatObject)} {i p : Nat}
    (hi : held objs i = some p) : ∃ self, objs[i]? = some (some self) ∧ self.stat = some p := by
  unfold held at hi
  split at hi
  · rename_i o ho
    exact ⟨o, ho, hi⟩
  · exact Option.noConfusion hi

/-- The release at the start of `contentstat_init` and in `contentstat_dealloc` is defined and
keeps the invariant. -/
theorem owned_dealloc {h : Heap} {hd : Nat → Option Nat} (inv : Owned h hd) {i : Nat}
    {self : _ContentStatObject} (hi : hd i = self.stat) :
    ∃ h1, contentstat_dealloc h self = some h1 ∧ Owned h1 (rebind hd i none) ∧
      h1.next = h.next ∧ (∀ p, self.stat = some p → h1.freed = p :: h.freed) := by
  unfold contentstat_dealloc
  cases hs : self.stat with
  | none =>
    rw [hs] at hi
    refine ⟨h, rfl, ?_, rfl, ?_⟩
    · rw [rebind_self hi]
      exact inv
    · intro p hp
      exact Option.noConfusion hp
  | some p =>
    rw [hs] at hi
    obtain ⟨h1, hfree, hfreed, hnext, hinv⟩ := owned_release inv hi
    refine ⟨h1, hfree, hinv, hnext, ?_⟩
    intro q hq
    rw [← Option.some.inj hq]
    exact hfreed

theorem init_defined {h h1 : Heap} {self : _ContentStatObject}
    (hrel : contentstat_dealloc h self = some h1) (args : List PyObject) (f : Int → NewOutcome) :
    ∃ r, contentstat_init h self args f = some r := by
  unfold contentstat_dealloc at hrel
  unfold contentstat_init
  cases hp : PyArg_ParseTuple_i args with
  | none => exact ⟨_, rfl⟩
  | some t =>
    simp only [hrel]
    cases herr : (f t).err <;> exact ⟨_, rfl⟩

theorem setattr_no_record (h : Heap) (self : _ContentStatObject) (hs : self.stat = none)
    (a : Attr) (value : PyObject) :
    setattr h self a value = some { ret := -1, err := improperObject, heap := h } := by
  fin_cases a
  · show set_num h self value .size = _
    simp [set_num, check_ContentStatStatus, hs, improperObject]
  · show set_int h self value .checksum_type = _
    simp [set_int, check_ContentStatStatus, hs, improperObject]
  · show set_str h self value .checksum = _
    simp [set_str, check_ContentStatStatus, hs, improperObject]

/-- Every call keeps the ownership invariant and none runs into undefined behaviour. -/
theorem step_owned {w : World} (inv : Owned w.heap (held w.objs)) (op : Op) :
    ∃ w', step w op = some w' ∧ Owned w'.heap (held w'.objs) := by
  cases op with
  | new allocated =>
    cases allocated with
    | false => exact ⟨w, rfl, inv⟩
    | true =>
      refine ⟨{ w with objs := w.objs ++ [some { stat := none }] }, rfl, ?_⟩
      show Owned w.heap (held (w.objs ++ [some { stat := none }]))
      rw [held_append_new]
      exact inv
  | init i args f =>
    cases hobj : w.objs[i]? with
    | none => exact ⟨w, by simp [step, hobj], inv⟩
    | some slot =>
      cases slot with
      | none => exact ⟨w, by simp [step, hobj], inv⟩
      | some self =>
        have hheld := held_of_slot hobj
        obtain ⟨h1, hrel, hinv1, -, -⟩ := owned_dealloc inv hheld
        obtain ⟨r, hinit⟩ := init_defined hrel args f
        refine ⟨{ heap := r.heap, objs := w.objs.set i (some r.self) },
          by simp [step, hobj, hinit], ?_⟩
        show Owned r.heap (held (w.objs.set i (some r.self)))
        rw [held_set hobj]
        cases hp : PyArg_ParseTuple_i args with
        | none =>
          rw [init_parse_failure _ _ _ _ hp] at hinit
          have hr := Option.some.inj hinit
          subst hr
          show Owned w.heap (rebind (held w.objs) i self.stat)
          rw [rebind_self hheld]
          exact inv
        | some t =>
          obtain ⟨h1', hrel', hcase, -⟩ := init_effect hp hinit
          rw [hrel] at hrel'
          have := Option.some.inj hrel'
          subst this
          rcases hcase with ⟨-, hheap, hstat⟩ | ⟨rec, -, hheap, hstat⟩
          · show Owned r.heap (rebind (held w.objs) i r.self.stat)
            rw [hheap, hstat]
            exact hinv1
          · show Owned r.heap (rebind (held w.objs) i r.self.stat)
            rw [hheap, hstat, ← rebind_rebind (held w.objs) i none (some h1.next)]
            exact owned_acquire hinv1 (by simp [rebind]) rec
  | setattr i a value =>
    cases hobj : w.objs[i]? with
    | none => exact ⟨w, by simp [step, hobj], inv⟩
    | some slot =>
      cases slot with
      | none => exact ⟨w, by simp [step, hobj], inv⟩
      | some self =>
        have hheld := held_of_slot hobj
        cases hs : self.stat with
        | none =>
          refine ⟨{ w with heap := w.heap }, ?_, inv⟩
          simp [step, hobj, setattr_no_record w.heap self hs a value]
        | some p =>
          rw [hs] at hheld
          have hlive : w.heap.cells p ≠ none := (inv.2.2.2.1 p).2 ⟨i, hheld⟩
          cases hc : w.heap.cells p with
          | none => exact absurd hc hlive
          | some rec =>
            have hold : deref w.heap self = some (p, rec) := by simp [deref, hs, hc]
            obtain ⟨r, rec', hset, hr, -⟩ := setattr_of_deref hold a value
            refine ⟨{ w with heap := r.heap }, by simp [step, hobj, hset], ?_⟩
            show Owned r.heap (held w.objs)
            rcases hr with ⟨-, hh, -⟩ | ⟨-, hh⟩
            · rw [hh]
              exact inv
            · rw [hh]
              exact owned_write inv hlive rec'
  | dealloc i =>
    cases hobj : w.objs[i]? with
    | none => exact ⟨w, by simp [step, hobj], inv⟩
    | some slot =>
      cases slot with
      | none => exact ⟨w, by simp [step, hobj], inv⟩
      | some self =>
        obtain ⟨h1, hrel, hinv1, -, -⟩ := owned_dealloc inv (held_of_slot hobj)
        refine ⟨{ heap := h1, objs := w.objs.set i none }, by simp [step, hobj, hrel], ?_⟩
        show Owned h1 (held (w.objs.set i none))
        rw [held_set hobj]
        exact hinv1

theorem run_owned (ops : List Op) :
    ∀ w : World, Owned w.heap (held w.objs) →
      ∃ w', run w ops = some w' ∧ Owned w'.heap (held w'.objs) := by
  induction ops with
  | nil =>
    intro w inv
    exact ⟨w, rfl, inv⟩
  | cons op rest ih =>
    intro w inv
    obtain ⟨w1, hstep, inv1⟩ := step_owned inv op
    obtain ⟨w2, hrun, inv2⟩ := ih w1 inv1
    refine ⟨w2, ?_, inv2⟩
    simp only [run, hstep]
    exact hrun

/-- Outside the range of a C `long` the numeric setters do not fail: `PyLong_AsLong` leaves
`OverflowError` set and returns -1, which is stored, and the setter returns 0. -/
theorem set_num_out_of_long_range :
    observe (setattr sampleHeap sampleObj Attr.size (.PyLong 9223372036854775808))
      = some (0, some .OverflowError) ∧
    observe ((setattr sampleHeap sampleObj Attr.size (.PyLong 9223372036854775808)).bind
        (fun r => getattr r.heap sampleObj Attr.size))
      = some (some (.PyLong (-1)), none) := by
  decide

/-! ## The claims -/

/-- C1: on an object that holds a record, assigning `size` an integer `v` of the signed 64-bit
range (given as a `long` or as an `int`) returns 0 with no error set, and reading `size`
afterwards returns the `long` `v`. -/
theorem size_round_trip (h : Heap) (self : _ContentStatObject) (p : Nat) (rec : cr_ContentStat)
    (hold : deref h self = some (p, rec)) (value : PyObject) (v : Int)
    (hval : intValue value = some v) (hv : -2 ^ 63 ≤ v ∧ v < 2 ^ 63) :
    RoundTrips h self Attr.size value (.PyLong v) := by
  have hv' := (long_range v).1 hv
  have hs : setattr h self Attr.size value
      = some { ret := 0, err := none, heap := h.write p { rec with size := v } } := by
    show set_num h self value .size = _
    rw [set_num_size hold, numArg_of_intValue hval hv']
  have hg : getattr (h.write p { rec with size := v }) self Attr.size
      = some { ret := some (.PyLong v), err := none,
               heap := h.write p { rec with size := v } } := by
    show get_num _ self .size = _
    rw [get_num_size (deref_write hold _)]
  exact ⟨_, hs, rfl, rfl, _, hg, rfl, rfl⟩

/-- The hypotheses of `size_round_trip` hold for the sample object and the `long` -5. -/
theorem size_round_trip_witness :
    deref sampleHeap sampleObj = some (0, { size := 7, checksum_type := 2, checksum := none }) ∧
    intValue (.PyLong (-5)) = some (-5) ∧ ((-2 : Int) ^ 63 ≤ -5 ∧ (-5 : Int) < 2 ^ 63) ∧
    RoundTrips sampleHeap sampleObj Attr.size (.PyLong (-5)) (.PyLong (-5)) :=
  ⟨by decide, rfl, by decide,
    size_round_trip sampleHeap sampleObj 0 { size := 7, checksum_type := 2, checksum := none }
      (by decide) (.PyLong (-5)) (-5) rfl (by decide)⟩

/-- C2 as stated fails: a `str` with an embedded NUL byte is accepted by the setter, and the read
that follows returns only the bytes in front of the NUL. -/
theorem checksum_round_trip_counterexample :
    observe (setattr sampleHeap sampleObj Attr.checksum (.PyString [97, 0, 98]))
      = some (0, none) ∧
    observe ((setattr sampleHeap sampleObj Attr.checksum (.PyString [97, 0, 98])).bind
        (fun r => getattr r.heap sampleObj Attr.checksum))
      = some (some (.PyString [97]), none) ∧
    ¬ RoundTrips sampleHeap sampleObj Attr.checksum (.PyString [97, 0, 98])
        (.PyString [97, 0, 98]) := by
  refine ⟨by decide, by decide, ?_⟩
  rintro ⟨r, hr, -, -, g, hg, hret, -⟩
  have h2 : observe ((setattr sampleHeap sampleObj Attr.checksum (.PyString [97, 0, 98])).bind
      (fun r => getattr r.heap sampleObj Attr.checksum))
      = some (some (.PyString [97, 0, 98]), g.err) := by
    rw [hr]
    simp [observe, hg, hret]
  have h3 : observe ((setattr sampleHeap sampleObj Attr.checksum (.PyString [97, 0, 98])).bind
      (fun r => getattr r.heap sampleObj Attr.checksum))
      = some (some (.PyString [97]), none) := by decide
  rw [h3] at h2
  simp at h2

/-- C2, amended: on an object that holds a record, assigning `checksum` a `str` or None succeeds;
the read that follows returns None for None, and for a `str` the `str` of its bytes in front of
the first NUL byte, which is the assigned string itself when that holds no NUL byte. -/
theorem checksum_round_trip (h : Heap) (self : _ContentStatObject) (p : Nat)
    (rec : cr_ContentStat) (hold : deref h self = some (p, rec)) (x : Option (List Byte)) :
    RoundTrips h self Attr.checksum
      (match x with
       | none => .Py_None
       | some s => .PyString s)
      (match x with
       | none => .Py_None
       | some s => .PyString (cstr s)) ∧
    (∀ s, x = some s → (0 : Byte) ∉ s →
      RoundTrips h self Attr.checksum (.PyString s) (.PyString s)) := by
  have key : ∀ y : Option (List Byte),
      RoundTrips h self Attr.checksum
        (match y with
         | none => .Py_None
         | some s => .PyString s)
        (match y with
         | none => .Py_None
         | some s => .PyString (cstr s)) := by
    intro y
    cases y with
    | none =>
      have hs : setattr h self Attr.checksum .Py_None
          = some { ret := 0, err := none, heap := h.write p { rec with checksum := none } } := by
        show set_str h self .Py_None .checksum = _
        rw [set_str_checksum hold]
        simp [PyString_Check, strArg, PyObject_ToStrOrNull, g_strdup]
      exact ⟨_, hs, rfl, rfl, _, getattr_of_deref (deref_write hold _) _, rfl, rfl⟩
    | some s =>
      have hs : setattr h self Attr.checksum (.PyString s)
          = some { ret := 0, err := none,
                   heap := h.write p { rec with checksum := some (cstr s) } } := by
        show set_str h self (.PyString s) .checksum = _
        rw [set_str_checksum hold]
        simp [PyString_Check, strArg, PyObject_ToStrOrNull, PyString_AsString, g_strdup]
      refine ⟨_, hs, rfl, rfl, _, getattr_of_deref (deref_write hold _) _, ?_, rfl⟩
      show some (fieldValue _ 2) = _
      simp [fieldValue, cstr_idem]
  refine ⟨key x, ?_⟩
  intro s _ hs
  have := key (some s)
  simp only [(cstr_eq_self_iff s).2 hs] at this
  exact this

/-- The hypothesis of `checksum_round_trip` holds for the sample object; the string with an
embedded NUL is read back cut. -/
theorem checksum_round_trip_witness :
    deref sampleHeap sampleObj = some (0, { size := 7, checksum_type := 2, checksum := none }) ∧
    RoundTrips sampleHeap sampleObj Attr.checksum (.PyString [97, 0, 98]) (.PyString [97]) :=
  ⟨by decide,
    (checksum_round_trip sampleHeap sampleObj 0
      { size := 7, checksum_type := 2, checksum := none } (by decide) (some [97, 0, 98])).1⟩

/-- C3: on an object that holds a record, assigning `checksum_type` an integer `v` of the signed
32-bit range (given as a `long` or as an `int`) returns 0 with no error set, and reading
`checksum_type` afterwards returns the `long` `v`, negative values included. -/
theorem checksum_type_round_trip (h : Heap) (self : _ContentStatObject) (p : Nat)
    (rec : cr_ContentStat) (hold : deref h self = some (p, rec)) (value : PyObject) (v : Int)
    (hval : intValue value = some v) (hv : -2 ^ 31 ≤ v ∧ v < 2 ^ 31) :
    RoundTrips h self Attr.checksum_type value (.PyLong v) := by
  have hv' : LONG_MIN ≤ v ∧ v ≤ LONG_MAX := by
    unfold LONG_MIN LONG_MAX
    norm_num at hv
    omega
  have hs : setattr h self Attr.checksum_type value
      = some { ret := 0, err := none, heap := h.write p { rec with checksum_type := v } } := by
    show set_int h self value .checksum_type = _
    rw [set_int_checksum_type hold, numArg_of_intValue hval hv']
    simp [cast_int_of_range hv]
  exact ⟨_, hs, rfl, rfl, _, getattr_of_deref (deref_write hold _) _, rfl, rfl⟩

/-- The hypotheses of `checksum_type_round_trip` hold for the sample object and the `long` -3. -/
theorem checksum_type_round_trip_witness :
    deref sampleHeap sampleObj = some (0, { size := 7, checksum_type := 2, checksum := none }) ∧
    intValue (.PyLong (-3)) = some (-3) ∧ ((-2 : Int) ^ 31 ≤ -3 ∧ (-3 : Int) < 2 ^ 31) ∧
    RoundTrips sampleHeap sampleObj Attr.checksum_type (.PyLong (-3)) (.PyLong (-3)) :=
  ⟨by decide, rfl, by decide,
    checksum_type_round_trip sampleHeap sampleObj 0
      { size := 7, checksum_type := 2, checksum := none } (by decide) (.PyLong (-3)) (-3) rfl
      (by decide)⟩

/-- C5 as stated fails: assigning `checksum_type` the integer 2^32, which fits a C `long`,
returns 0, and the read that follows returns 0. -/
theorem numeric_setters_exact_counterexample :
    observe (setattr sampleHeap sampleObj Attr.checksum_type (.PyLong 4294967296))
      = some (0, none) ∧
    observe ((setattr sampleHeap sampleObj Attr.checksum_type (.PyLong 4294967296)).bind
        (fun r => getattr r.heap sampleObj Attr.checksum_type))
      = some (some (.PyLong 0), none) ∧
    ¬ (∀ r, setattr sampleHeap sampleObj Attr.checksum_type (.PyLong 4294967296) = some r →
        r.ret = -1 ∨
        ∃ g, getattr r.heap sampleObj Attr.checksum_type = some g ∧
          g.ret = some (.PyLong 4294967296)) := by
  refine ⟨by decide, by decide, ?_⟩
  intro hall
  have hs := @set_int_checksum_type sampleHeap sampleObj 0
    { size := 7, checksum_type := 2, checksum := none } (by decide) (.PyLong 4294967296)
  have hn : numArg (.PyLong 4294967296) = some (4294967296, none) := by decide
  rw [hn] at hs
  rcases hall _ hs with hret | ⟨g, hg, hret⟩
  · simp at hret
  · have hd : deref (sampleHeap.write 0
        { size := 7, checksum_type := cast_int 4294967296, checksum := none }) sampleObj
        = some (0, { size := 7, checksum_type := cast_int 4294967296, checksum := none }) := by
      decide
    have hg' := getattr_of_deref hd Attr.checksum_type
    simp only at hg
    rw [hg'] at hg
    have : some (fieldValue { size := 7, checksum_type := cast_int 4294967296, checksum := none }
        Attr.checksum_type) = some (PyObject.PyLong 4294967296) := by
      rw [← hret, ← Option.some.inj hg]
    revert this
    decide

/-- C5, amended: on an object that holds a record, for every integer `v` that fits a C `long`
(the signed 64-bit range), assigning `size` succeeds and the read that follows returns `v`;
assigning `checksum_type` succeeds and the read that follows returns `v` reduced modulo 2^32
into the signed 32-bit range, which is `v` exactly when `v` lies in the signed 32-bit range. -/
theorem numeric_setters_store (h : Heap) (self : _ContentStatObject) (p : Nat)
    (rec : cr_ContentStat) (hold : deref h self = some (p, rec)) (value : PyObject) (v : Int)
    (hval : intValue value = some v) (hv : -2 ^ 63 ≤ v ∧ v < 2 ^ 63) :
    RoundTrips h self Attr.size value (.PyLong v) ∧
    RoundTrips h self Attr.checksum_type value (.PyLong (cast_int v)) ∧
    (cast_int v = v ↔ (-2 ^ 31 ≤ v ∧ v < 2 ^ 31)) := by
  have hv' := (long_range v).1 hv
  refine ⟨?_, ?_, ?_⟩
  · have hs : setattr h self Attr.size value
        = some { ret := 0, err := none, heap := h.write p { rec with size := v } } := by
      show set_num h self value .size = _
      rw [set_num_size hold, numArg_of_intValue hval hv']
    exact ⟨_, hs, rfl, rfl, _, getattr_of_deref (deref_write hold _) _, rfl, rfl⟩
  · have hs : setattr h self Attr.checksum_type value
        = some { ret := 0, err := none,
                 heap := h.write p { rec with checksum_type := cast_int v } } := by
      show set_int h self value .checksum_type = _
      rw [set_int_checksum_type hold, numArg_of_intValue hval hv']
    exact ⟨_, hs, rfl, rfl, _, getattr_of_deref (deref_write hold _) _, rfl, rfl⟩
  · constructor
    · intro hc
      have := cast_int_range v
      rw [hc] at this
      unfold INT_MIN INT_MAX at this
      norm_num
      omega
    · exact cast_int_of_range

/-- The hypotheses of `numeric_setters_store` hold for the sample object and 2^32 + 5, which is
read back as 5 from `checksum_type`. -/
theorem numeric_setters_store_witness :
    deref sampleHeap sampleObj = some (0, { size := 7, checksum_type := 2, checksum := none }) ∧
    intValue (.PyLong 4294967301) = some 4294967301 ∧
    ((-2 : Int) ^ 63 ≤ 4294967301 ∧ (4294967301 : Int) < 2 ^ 63) ∧
    RoundTrips sampleHeap sampleObj Attr.size (.PyLong 4294967301) (.PyLong 4294967301) ∧
    RoundTrips sampleHeap sampleObj Attr.checksum_type (.PyLong 4294967301) (.PyLong 5) :=
  ⟨by decide, rfl, by decide,
    (numeric_setters_store sampleHeap sampleObj 0
      { size := 7, checksum_type := 2, checksum := none } (by decide) (.PyLong 4294967301)
      4294967301 rfl (by decide)).1,
    (numeric_setters_store sampleHeap sampleObj 0
      { size := 7, checksum_type := 2, checksum := none } (by decide) (.PyLong 4294967301)
      4294967301 rfl (by decide)).2.1⟩

/-- C8: `contentstat_new` gives an object whose `stat` is NULL, and on such an object every
getter returns NULL and every setter returns -1, for every heap, every member offset and every
value (well-typed ones included), with the error "Improper createrepo_c ContentStat object." set
and the heap left as it was. -/
theorem no_record_rejected (h : Heap) (member_offset : OFFSET) (value : PyObject) :
    contentstat_new true = some { stat := none } ∧
    get_num h { stat := none } member_offset
      = some { ret := none, err := improperObject, heap := h } ∧
    get_int h { stat := none } member_offset
      = some { ret := none, err := improperObject, heap := h } ∧
    get_str h { stat := none } member_offset
      = some { ret := none, err := improperObject, heap := h } ∧
    set_num h { stat := none } value member_offset
      = some { ret := -1, err := improperObject, heap := h } ∧
    set_int h { stat := none } value member_offset
      = some { ret := -1, err := improperObject, heap := h } ∧
    set_str h { stat := none } value member_offset
      = some { ret := -1, err := improperObject, heap := h } := by
  refine ⟨rfl, ?_, ?_, ?_, ?_, ?_, ?_⟩ <;>
    simp [get_num, get_int, get_str, set_num, set_int, set_str, check_ContentStatStatus,
      improperObject]

/-- C9: on an object that holds a record, an assignment to one attribute, successful or not,
leaves what a read of each other attribute returns as it was before; and a read of any attribute
returns the heap unchanged. -/
theorem setters_frame (h : Heap) (self : _ContentStatObject) (p : Nat) (rec : cr_ContentStat)
    (hold : deref h self = some (p, rec)) :
    (∀ (a b : Attr) (value : PyObject), a ≠ b →
      ∃ r, setattr h self a value = some r ∧
        observe (getattr r.heap self b) = observe (getattr h self b) ∧
        observe (getattr h self b) = some (some (fieldValue rec b), none)) ∧
    (∀ a : Attr, ∃ g, getattr h self a = some g ∧ g.heap = h) := by
  constructor
  · intro a b value hab
    obtain ⟨r, rec', hs, hr, hsize, htype, hsum⟩ := setattr_of_deref hold a value
    refine ⟨r, hs, ?_, ?_⟩
    · rw [getattr_of_deref (deref_after_setattr hold hr) b, getattr_of_deref hold b]
      have hf : fieldValue rec' b = fieldValue rec b := by
        fin_cases b
        · have := hsize hab
          simp [fieldValue, this]
        · have := htype hab
          simp [fieldValue, this]
        · have hc : rec'.checksum = rec.checksum := by
            rcases hsum with hc | ⟨ha, _⟩
            · exact hc
            · exact absurd ha hab
          simp [fieldValue, hc]
      simp [observe, hf]
    · rw [getattr_of_deref hold b]
      rfl
  · intro a
    exact ⟨_, getattr_of_deref hold a, rfl⟩

/-- The hypothesis of `setters_frame` holds for the sample object. -/
theorem setters_frame_witness :
    deref sampleHeap sampleObj = some (0, { size := 7, checksum_type := 2, checksum := none }) ∧
    (∃ r, setattr sampleHeap sampleObj Attr.size (.PyLong 9) = some r ∧
      observe (getattr r.heap sampleObj Attr.checksum_type)
        = observe (getattr sampleHeap sampleObj Attr.checksum_type) ∧
      observe (getattr sampleHeap sampleObj Attr.checksum_type)
        = some (some (.PyLong 2), none)) :=
  ⟨by decide,
    (setters_frame sampleHeap sampleObj 0 { size := 7, checksum_type := 2, checksum := none }
      (by decide)).1 Attr.size Attr.checksum_type (.PyLong 9) (by decide)⟩

/-- C10 as stated fails: for a `ContentStat` object whose `stat` is NULL the result is NULL and
no error is set. -/
theorem from_pyobject_null_counterexample :
    ContentStatObject_Check (.ContentStat { stat := none }) = true ∧
    ContentStat_FromPyObject (.ContentStat { stat := none }) = (none, none) ∧
    ¬ ((ContentStat_FromPyObject (.ContentStat { stat := none })).1 = none →
        (ContentStat_FromPyObject (.ContentStat { stat := none })).2 ≠ none) := by
  decide

/-- C10, amended: for an object that is not a `ContentStat` object the result is NULL with the
TypeError "Expected a ContentStat object." set; for a `ContentStat` object the result is the
pointer the object holds and no error is set.  Hence a NULL result means that either an error is
set or the argument is a `ContentStat` object that holds no record. -/
theorem from_pyobject_cases (o : PyObject) :
    (ContentStatObject_Check o = false →
      ContentStat_FromPyObject o = (none, some (.TypeError "Expected a ContentStat object."))) ∧
    (∀ obj, o = .ContentStat obj → ContentStat_FromPyObject o = (obj.stat, none)) ∧
    ((ContentStat_FromPyObject o).1 = none →
      (ContentStat_FromPyObject o).2 ≠ none ∨ o = .ContentStat { stat := none }) := by
  cases o <;> simp [ContentStat_FromPyObject, ContentStatObject_Check]
  rename_i obj
  intro hn
  cases obj
  simp_all

/-- C6: let every record that `cr_contentstat_new` creates have `checksum` NULL or a C string.
After a `contentstat_init` that returns 0 and leaves the object holding a record, every sequence
of attribute assignments, successful or failed, runs to its end, the object still holds a record
whose `checksum` is NULL or a C string, and `get_str` on `checksum` does not fail: it returns
None exactly when the field is NULL, and otherwise a `str` equal to the stored string. -/
theorem checksum_string_or_absent (h0 : Heap) (self0 : _ContentStatObject)
    (args : List PyObject) (cr_contentstat_new : Int → NewOutcome)
    (hfresh : ∀ t rec, (cr_contentstat_new t).record = some rec → CStrOk rec.checksum)
    (r : InitResult) (hinit : contentstat_init h0 self0 args cr_contentstat_new = some r)
    (hret : r.ret = 0) (hheld : r.self.stat ≠ none) (calls : List (Attr × PyObject)) :
    ∃ h p rec, setattrs r.heap r.self calls = some h ∧ deref h r.self = some (p, rec) ∧
      CStrOk rec.checksum ∧
      ∃ g, get_str h r.self .checksum = some g ∧ g.err = none ∧ g.heap = h ∧
        (g.ret = some .Py_None ↔ rec.checksum = none) ∧
        (∀ s, rec.checksum = some s → g.ret = some (.PyString s)) := by
  obtain ⟨t, hparse⟩ := init_ret_zero_parsed hinit hret
  obtain ⟨h1, -, hcase, -⟩ := init_effect hparse hinit
  rcases hcase with ⟨-, -, hnone⟩ | ⟨rec0, hrec0, hheap, hstat⟩
  · exact absurd hnone hheld
  · have hself : r.self = { stat := some h1.next } := by
      cases hs : r.self
      simp_all
    have hold0 : deref r.heap r.self = some (h1.next, rec0) := by
      rw [hheap, hself]
      exact deref_alloc h1 rec0
    obtain ⟨h, rec, hrun, hd, hok⟩ :=
      setattrs_keeps r.self h1.next calls r.heap rec0 hold0 (hfresh t rec0 hrec0)
    refine ⟨h, h1.next, rec, hrun, hd, hok, _, get_str_checksum hd, rfl, rfl, ?_, ?_⟩
    · cases hc : rec.checksum <;> simp
    · intro s hs
      have := (cstr_eq_self_iff s).2 (hok s hs)
      simp [hs, this]

/-- The hypotheses of `checksum_string_or_absent` hold for an object initialised on the empty
heap with the sample library behaviour. -/
theorem checksum_string_or_absent_witness :
    (∀ t rec, (sampleNew t).record = some rec → CStrOk rec.checksum) ∧
    contentstat_init Heap.empty { stat := none } [.PyInt ⟨1, by decide⟩] sampleNew
      = some { ret := 0, err := none,
               heap := (Heap.empty.alloc { size := 0, checksum_type := 1, checksum := none }).2,
               self := { stat := some 0 } } ∧
    (∃ h p rec,
      setattrs (Heap.empty.alloc { size := 0, checksum_type := 1, checksum := none }).2
        { stat := some 0 }
        [(Attr.checksum, .PyString [97, 0, 98]), (Attr.checksum, .Other 3),
         (Attr.size, .PyLong 4)] = some h ∧
      deref h { stat := some 0 } = some (p, rec) ∧ CStrOk rec.checksum ∧
      ∃ g, get_str h { stat := some 0 } .checksum = some g ∧ g.err = none ∧ g.heap = h ∧
        (g.ret = some .Py_None ↔ rec.checksum = none) ∧
        (∀ s, rec.checksum = some s → g.ret = some (.PyString s))) := by
  have hf : ∀ t rec, (sampleNew t).record = some rec → CStrOk rec.checksum := by
    intro t rec hrec s hs
    simp [sampleNew] at hrec
    subst hrec
    simp at hs
  exact ⟨hf, rfl,
    checksum_string_or_absent Heap.empty { stat := none } [.PyInt ⟨1, by decide⟩] sampleNew hf
      { ret := 0, err := none,
        heap := (Heap.empty.alloc { size := 0, checksum_type := 1, checksum := none }).2,
        self := { stat := some 0 } } rfl rfl (by decide) _⟩

/-- C7: every sequence of `tp_new`, `tp_init`, attribute assignment and `tp_dealloc` calls from
program start runs without undefined behaviour, and afterwards: no address is passed to
`cr_contentstat_free` twice; every freed address was allocated; an allocated address is freed
exactly when no live object holds it; a record that a live object holds is not freed, is live and
is held by that object alone; `tp_dealloc` on the holder and a `tp_init` on it whose arguments
parse free exactly that record and leave the object not referring to it; a `tp_init` whose
arguments do not parse changes nothing.  Such an init returns -1 with heap and object as they
were. -/
theorem record_lifetime (ops : List Op) :
    (∃ w, run World.start ops = some w ∧
      w.heap.freed.Nodup ∧
      (∀ p ∈ w.heap.freed, p < w.heap.next) ∧
      (∀ p, p < w.heap.next → (p ∈ w.heap.freed ↔ ∀ i, held w.objs i ≠ some p)) ∧
      (∀ i p, held w.objs i = some p →
        p ∉ w.heap.freed ∧ w.heap.cells p ≠ none ∧ (∀ j, held w.objs j = some p → j = i) ∧
        (∃ w', step w (.dealloc i) = some w' ∧ w'.heap.freed = p :: w.heap.freed ∧
          w'.objs[i]? = some none) ∧
        (∀ args f, PyArg_ParseTuple_i args ≠ none →
          ∃ w', step w (.init i args f) = some w' ∧ w'.heap.freed = p :: w.heap.freed ∧
            held w'.objs i ≠ some p) ∧
        (∀ args f, PyArg_ParseTuple_i args = none → step w (.init i args f) = some w))) ∧
    (∀ h self args f, PyArg_ParseTuple_i args = none →
      contentstat_init h self args f
        = some { ret := -1, err := some .ParseError, heap := h, self := self }) := by
  refine ⟨?_, fun h self args f hp => init_parse_failure h self args f hp⟩
  obtain ⟨w, hrun, inv⟩ := run_owned ops World.start owned_start
  have inv' := inv
  obtain ⟨hnd, hfr, hfresh, hlive, huniq, hacc⟩ := inv'
  refine ⟨w, hrun, hnd, fun p hp => (hfr p hp).1, ?_, ?_⟩
  · intro p hp
    constructor
    · intro hm i hi
      exact (hlive p).2 ⟨i, hi⟩ (hfr p hm).2
    · intro hno
      rcases hacc p hp with hm | hl
      · exact hm
      · obtain ⟨i, hi⟩ := (hlive p).1 hl
        exact absurd hi (hno i)
  · intro i p hi
    have hcell : w.heap.cells p ≠ none := (hlive p).2 ⟨i, hi⟩
    have hpn : p < w.heap.next := by
      by_contra hge
      exact hcell (hfresh p (Nat.le_of_not_lt hge))
    obtain ⟨self, hobj, hstat⟩ := slot_of_held hi
    have hlt : i < w.objs.length := by
      by_contra hge
      rw [List.getElem?_eq_none (Nat.le_of_not_lt hge)] at hobj
      exact Option.noConfusion hobj
    obtain ⟨h1, hrel, -, hnext, hfreed⟩ := owned_dealloc inv (held_of_slot hobj)
    refine ⟨fun hm => hcell (hfr p hm).2, hcell, fun j hj => huniq j i p hj hi, ?_, ?_, ?_⟩
    · refine ⟨{ heap := h1, objs := w.objs.set i none }, by simp [step, hobj, hrel],
        hfreed p hstat, ?_⟩
      simp [List.getElem?_set, hlt]
    · intro args f hp
      obtain ⟨r, hinit⟩ := init_defined hrel args f
      cases hparse : PyArg_ParseTuple_i args with
      | none => exact absurd hparse hp
      | some t =>
        obtain ⟨h1', hrel', hcase, -⟩ := init_effect hparse hinit
        rw [hrel] at hrel'
        have := Option.some.inj hrel'
        subst this
        refine ⟨{ heap := r.heap, objs := w.objs.set i (some r.self) },
          by simp [step, hobj, hinit], ?_, ?_⟩
        · show r.heap.freed = p :: w.heap.freed
          rcases hcase with ⟨-, hheap, -⟩ | ⟨rec, -, hheap, -⟩
          · rw [hheap]
            exact hfreed p hstat
          · rw [hheap]
            exact hfreed p hstat
        · show held (w.objs.set i (some r.self)) i ≠ some p
          rw [held_set hobj]
          simp only [rebind, if_true, slotStat]
          rcases hcase with ⟨-, -, hs⟩ | ⟨rec, -, -, hs⟩
          · rw [hs]
            exact fun e => Option.noConfusion e
          · rw [hs, hnext]
            intro e
            have := Option.some.inj e
            omega
    · intro args f hp
      simp only [step, hobj, init_parse_failure w.heap self args f hp]
      rw [set_same w.objs i (some self) hobj]

/-- The sample run ends with both records freed once, in the order 0, 1, and no record held. -/
theorem record_lifetime_witness :
    (run World.start sampleOps).map (fun w => (w.heap.freed, w.heap.next, w.objs))
      = some ([1, 0], 2, [none, some { stat := none }]) ∧
    (∃ w, run World.start sampleOps = some w ∧ w.heap.freed.Nodup ∧
      (∀ p ∈ w.heap.freed, p < w.heap.next) ∧
      (∀ p, p < w.heap.next → (p ∈ w.heap.freed ↔ ∀ i, held w.objs i ≠ some p))) := by
  refine ⟨by decide, ?_⟩
  obtain ⟨w, hrun, hnd, hfr, hacc, -⟩ := (record_lifetime sampleOps).1
  exact ⟨w, hrun, hnd, hfr, hacc⟩

/-- The two cases of `from_pyobject_cases` at a foreign object and at an initialised one. -/
theorem from_pyobject_cases_witness :
    ContentStatObject_Check (.Other 0) = false ∧
    ContentStat_FromPyObject (.Other 0)
      = (none, some (.TypeError "Expected a ContentStat object.")) ∧
    ContentStat_FromPyObject (.ContentStat { stat := some 4 }) = (some 4, none) :=
  ⟨rfl, (from_pyobject_cases (.Other 0)).1 rfl,
    (from_pyobject_cases (.ContentStat { stat := some 4 })).2.1 _ rfl⟩

end ContentStatPy
